import Mathlib

/-!
Shallow embedding of the phase-field precipitate-aging simulator
(`src/alloy625.cpp` together with `src/alloy625.hpp`), an isotropic
Cr-Nb-Ni alloy phase-transformation code.

Conventions of the embedding:
* C++ `double` values are modelled as exact rationals (`ℚ`); real-analytic
  facts (derivatives, strict monotonicity) are stated over `ℝ` and bridged
  to the rational definitions by cast lemmas.
* Every field vector has the 14 slots documented at the top of
  `alloy625.cpp`: system compositions (slots 0-1), phase order parameters
  (slots 2-4), fictitious per-phase compositions (slots 5-12) and the
  cached interface velocity (slot 13).
* `NP = 4` and `NC = 2` as `#define`d in `alloy625.hpp`.
* The GSL multiroot stepper and the MMSP grid library are external
  collaborators; their behaviour is abstracted by explicit function
  parameters, or modelled from the specification where noted.
-/

namespace Alloy625

/-! ## Model constants (from `alloy625.cpp` lines 97-153 and `update`) -/

/-- Source constant: `#define NP 4` in `alloy625.hpp` line 21. -/
def NP : ℕ := 4

/-- Source constant: `#define NC 2` in `alloy625.hpp` line 22. -/
def NC : ℕ := 2

/-- Source constant: `const double meshres = 5.0e-9;` grid spacing (m). -/
def meshres : ℚ := 5.0e-9

/-- Source constant: `const double alpha = 1.07e11;` three-phase coexistence coefficient. -/
def alphaCoeff : ℚ := 1.07e11

/-- Source constant: `const double D_CrCr = 2.42e-15;` diffusivity. -/
def D_CrCr : ℚ := 2.42e-15

/-- Source constant: `const double D_CrNb = 2.47e-15;` diffusivity. -/
def D_CrNb : ℚ := 2.47e-15

/-- Source constant: `const double D_NbCr = 0.43e-15;` diffusivity. -/
def D_NbCr : ℚ := 0.43e-15

/-- Source constant: `const double D_NbNb = 3.32e-15;` diffusivity. -/
def D_NbNb : ℚ := 3.32e-15

/-- Source constant: `const double kappa[NP] = {1.24e-8, 1.24e-8, 1.24e-8};` gradient energy
coefficients (the three initialized entries; with `NP = 4` the fourth array
entry is zero-initialized and never read). -/
def kappa0 : ℚ := 1.24e-8
/-- Second entry of `kappa`. -/
def kappa1 : ℚ := 1.24e-8
/-- Third entry of `kappa`. -/
def kappa2 : ℚ := 1.24e-8

/-- Source constant: `const double Lmob[NP] = {2.904e-11, ...};` numerical mobility. -/
def Lmob0 : ℚ := 2.904e-11
/-- Second entry of `Lmob`. -/
def Lmob1 : ℚ := 2.904e-11
/-- Third entry of `Lmob`. -/
def Lmob2 : ℚ := 2.904e-11

/-- Source constant: `const double sigma[NP] = {1.01, 1.01, 1.01};` interfacial energy. -/
def sigma0 : ℚ := 1.01

/-- Source constant: `const double width_factor = 2.2;`. -/
def width_factor : ℚ := 2.2

/-- Source constant: `const double ifce_width = 10.0*meshres;`. -/
def ifce_width : ℚ := 10.0 * meshres

/-- Source constant: `omega[i] = 3.0 * width_factor * sigma[i] / ifce_width;` multiwell height. -/
def omega0 : ℚ := 3.0 * width_factor * sigma0 / ifce_width
/-- Second entry of `omega` (all three `sigma` entries coincide). -/
def omega1 : ℚ := 3.0 * width_factor * sigma0 / ifce_width
/-- Third entry of `omega`. -/
def omega2 : ℚ := 3.0 * width_factor * sigma0 / ifce_width

/-- Source constant: `const double epsilon = 1.0e-14;` numerical zero threshold. -/
def epsilon : ℚ := 1.0e-14

/-- Source constant: `const double root_tol = 1.0e-4;` residual tolerance of the tangent solver. -/
def root_tol : ℚ := 1.0e-4

/-- Source constant: `const int root_max_iter = 500000;`. -/
def root_max_iter : ℕ := 500000

/-- Source constant: `const double LinStab = 1.0 / 30.12044;` (non-CALPHAD build). -/
def LinStab : ℚ := 1.0 / 30.12044

/-- Transformation-limited timestep,
`dtp = (meshres*meshres)/(2.0 * dim * Lmob[0]*kappa[0])` (`update`). -/
def dtp (dim : ℕ) : ℚ := (meshres * meshres) / (2.0 * (dim : ℚ) * Lmob0 * kappa0)

/-- Diffusion-limited timestep,
`dtc = (meshres*meshres)/(2.0 * dim * std::max(D_CrCr, D_NbNb))` (`update`). -/
def dtc (dim : ℕ) : ℚ := (meshres * meshres) / (2.0 * (dim : ℚ) * max D_CrCr D_NbNb)

/-- Source constant: `const double timelimit = std::min(dtp, dtc) / 10;` (`update`). -/
def timelimit (dim : ℕ) : ℚ := min (dtp dim) (dtc dim) / 10

/-- Source constant: `const double advectionlimit = 0.125 * meshres;` (`update`). -/
def advectionlimit : ℚ := 0.125 * meshres

/-- Source constant: `const double scaleup = 1.1;` timestep growth factor (`update`). -/
def scaleup : ℚ := 1.1

/-- Source constant: `const double scaledn = 0.8;` timestep shrink factor (`update`). -/
def scaledn : ℚ := 0.8

/-! ## Interpolation functions (`alloy625.cpp` lines 1118-1127) -/

/-- Source: `double h(const double p) { return p*p*p*(6.0*p*p - 15.0*p + 10.0); }` -/
def h (p : ℚ) : ℚ := p * p * p * (6.0 * p * p - 15.0 * p + 10.0)

/-- Source: `double hprime(const double p) { return 30.0*p*p*(1.0-p)*(1.0-p); }` -/
def hprime (p : ℚ) : ℚ := 30.0 * p * p * (1.0 - p) * (1.0 - p)

/-- Source: `double sign(const double& x) {return (x<0) ? -1.0 : 1.0;}`
(`alloy625.hpp` line 115). -/
def sign (x : ℚ) : ℚ := if x < 0 then -1.0 else 1.0

/-! ## Field vector (14 slots, `alloy625.cpp` lines 53-79) -/

/-- One per-node field vector of the grid: slots 0-13 of the MMSP
`vector<double>` with their documented meanings. -/
structure NodeVec where
  /-- slot 0: molar fraction of Cr + Mo -/
  xCr : ℚ
  /-- slot 1: molar fraction of Nb -/
  xNb : ℚ
  /-- slot 2: phase fraction (order parameter) of delta -/
  pDel : ℚ
  /-- slot 3: phase fraction of mu -/
  pMu : ℚ
  /-- slot 4: phase fraction of Laves -/
  pLav : ℚ
  /-- slot 5: Cr fraction in pure gamma -/
  cGamCr : ℚ
  /-- slot 6: Nb fraction in pure gamma -/
  cGamNb : ℚ
  /-- slot 7: Cr fraction in pure delta -/
  cDelCr : ℚ
  /-- slot 8: Nb fraction in pure delta -/
  cDelNb : ℚ
  /-- slot 9: Cr fraction in pure mu -/
  cMuCr : ℚ
  /-- slot 10: Nb fraction in pure mu -/
  cMuNb : ℚ
  /-- slot 11: Cr fraction in pure Laves -/
  cLavCr : ℚ
  /-- slot 12: Nb fraction in pure Laves -/
  cLavNb : ℚ
  /-- slot 13: cached local interface velocity -/
  vel : ℚ
deriving DecidableEq

/-! ## Free-energy model interface

The energy functions are compiled in from `taylor625.c` / `parabola625.c` /
`energy625.c` depending on build flags (`alloy625.cpp` lines 38-44); the
spec treats them as a pure, swappable black box.  The embedding therefore
takes them as an explicit record of pure functions. -/

/-- The free-energy black box: molar Gibbs energies and their first
derivatives per phase, each a pure function of the two independent
compositions (Cr, Nb). -/
structure FEModel where
  g_gam : ℚ → ℚ → ℚ
  g_del : ℚ → ℚ → ℚ
  g_mu : ℚ → ℚ → ℚ
  g_lav : ℚ → ℚ → ℚ
  dg_gam_dxCr : ℚ → ℚ → ℚ
  dg_gam_dxNb : ℚ → ℚ → ℚ
  dg_del_dxCr : ℚ → ℚ → ℚ
  dg_del_dxNb : ℚ → ℚ → ℚ
  dg_mu_dxCr : ℚ → ℚ → ℚ
  dg_mu_dxNb : ℚ → ℚ → ℚ
  dg_lav_dxCr : ℚ → ℚ → ℚ
  dg_lav_dxNb : ℚ → ℚ → ℚ

/-- A free-energy model whose functions are all zero; used only to
instantiate universally quantified statements at a concrete input. -/
def zeroModel : FEModel :=
  ⟨fun _ _ => 0, fun _ _ => 0, fun _ _ => 0, fun _ _ => 0,
   fun _ _ => 0, fun _ _ => 0, fun _ _ => 0, fun _ _ => 0,
   fun _ _ => 0, fun _ _ => 0, fun _ _ => 0, fun _ _ => 0⟩

/-! ## Parallel-tangent residual (`parallelTangent_f`, lines 1165-1225) -/

/-- Source: `struct rparams` (`alloy625.hpp` lines 77-86): the constants of one
parallel-tangent solve. -/
structure RParams where
  x_Cr : ℚ
  x_Nb : ℚ
  n_del : ℚ
  n_mu : ℚ
  n_lav : ℚ
deriving DecidableEq

/-- The 8-component `gsl_vector` of unknowns/residuals, in the slot order
used by `parallelTangent_f`: gamma Cr, gamma Nb, delta Cr, delta Nb,
mu Cr, mu Nb, Laves Cr, Laves Nb. -/
structure Vec8 where
  c0 : ℚ
  c1 : ℚ
  c2 : ℚ
  c3 : ℚ
  c4 : ℚ
  c5 : ℚ
  c6 : ℚ
  c7 : ℚ
deriving DecidableEq

/-- The all-zero 8-vector. -/
def Vec8.zero : Vec8 := ⟨0, 0, 0, 0, 0, 0, 0, 0⟩

/-- Sum of squares of the components: square of the Euclidean norm
computed by `gsl_blas_dnrm2`. -/
def Vec8.normSq (v : Vec8) : ℚ :=
  v.c0 * v.c0 + v.c1 * v.c1 + v.c2 * v.c2 + v.c3 * v.c3 +
  v.c4 * v.c4 + v.c5 * v.c5 + v.c6 * v.c6 + v.c7 * v.c7

/-- Sum of absolute values of the components: the quantity tested by
`gsl_multiroot_test_residual` against the tolerance. -/
def Vec8.sumAbs (v : Vec8) : ℚ :=
  |v.c0| + |v.c1| + |v.c2| + |v.c3| + |v.c4| + |v.c5| + |v.c6| + |v.c7|

/-- Source: `parallelTangent_f` (`alloy625.cpp` lines 1165-1225): the residual
vector of the parallel-tangent system.  Components 0-1 are the mass-balance
residuals for Cr and Nb; components 2-7 are the chemical-potential
differences of gamma against delta, mu and Laves for Cr and Nb.
`n_gam = 1.0 - n_del - n_mu - n_lav` as in line 1180. -/
def parallelTangent_f (m : FEModel) (p : RParams) (x : Vec8) : Vec8 :=
  let n_gam := 1.0 - p.n_del - p.n_mu - p.n_lav
  let dgGdxCr := m.dg_gam_dxCr x.c0 x.c1
  let dgGdxNb := m.dg_gam_dxNb x.c0 x.c1
  let dgDdxCr := m.dg_del_dxCr x.c2 x.c3
  let dgDdxNb := m.dg_del_dxNb x.c2 x.c3
  let dgUdxCr := m.dg_mu_dxCr x.c4 x.c5
  let dgUdxNb := m.dg_mu_dxNb x.c4 x.c5
  let dgLdxCr := m.dg_lav_dxCr x.c6 x.c7
  let dgLdxNb := m.dg_lav_dxNb x.c6 x.c7
  { c0 := p.x_Cr - n_gam * x.c0 - p.n_del * x.c2 - p.n_mu * x.c4 - p.n_lav * x.c6
    c1 := p.x_Nb - n_gam * x.c1 - p.n_del * x.c3 - p.n_mu * x.c5 - p.n_lav * x.c7
    c2 := dgGdxCr - dgDdxCr
    c3 := dgGdxNb - dgDdxNb
    c4 := dgGdxCr - dgUdxCr
    c5 := dgGdxNb - dgUdxNb
    c6 := dgGdxCr - dgLdxCr
    c7 := dgGdxNb - dgLdxNb }

/-- The mass-balance constraint family of the claim: for each component,
the interpolated-fraction-weighted sum of fictitious compositions equals
the system composition (gamma fraction implicit). -/
def massBalance (p : RParams) (x : Vec8) : Prop :=
  p.x_Cr = (1.0 - p.n_del - p.n_mu - p.n_lav) * x.c0 +
      p.n_del * x.c2 + p.n_mu * x.c4 + p.n_lav * x.c6 ∧
  p.x_Nb = (1.0 - p.n_del - p.n_mu - p.n_lav) * x.c1 +
      p.n_del * x.c3 + p.n_mu * x.c5 + p.n_lav * x.c7

/-- The equal-chemical-potential constraint family of the claim: gamma as
common reference phase against each secondary phase, per component. -/
def equalChemPot (m : FEModel) (x : Vec8) : Prop :=
  (m.dg_gam_dxCr x.c0 x.c1 = m.dg_del_dxCr x.c2 x.c3 ∧
   m.dg_gam_dxNb x.c0 x.c1 = m.dg_del_dxNb x.c2 x.c3) ∧
  (m.dg_gam_dxCr x.c0 x.c1 = m.dg_mu_dxCr x.c4 x.c5 ∧
   m.dg_gam_dxNb x.c0 x.c1 = m.dg_mu_dxNb x.c4 x.c5) ∧
  (m.dg_gam_dxCr x.c0 x.c1 = m.dg_lav_dxCr x.c6 x.c7 ∧
   m.dg_gam_dxNb x.c0 x.c1 = m.dg_lav_dxNb x.c6 x.c7)

/-- If `a * a ≤ t * t` with `0 ≤ t` then `|a| ≤ t`. -/
lemma abs_le_of_mul_self_le (a t : ℚ) (ht : 0 ≤ t) (hsq : a * a ≤ t * t) :
    |a| ≤ t := by
  rcases abs_cases a with ⟨h1, _⟩ | ⟨h1, _⟩ <;> nlinarith

/-- Every component of an 8-vector is bounded in absolute value by any
bound on its Euclidean norm. -/
lemma Vec8.comp_abs_le_of_normSq_le (v : Vec8) (t : ℚ) (ht : 0 ≤ t)
    (hn : v.normSq ≤ t * t) :
    |v.c0| ≤ t ∧ |v.c1| ≤ t ∧ |v.c2| ≤ t ∧ |v.c3| ≤ t ∧
    |v.c4| ≤ t ∧ |v.c5| ≤ t ∧ |v.c6| ≤ t ∧ |v.c7| ≤ t := by
  simp only [Vec8.normSq] at hn
  have n0 := mul_self_nonneg v.c0
  have n1 := mul_self_nonneg v.c1
  have n2 := mul_self_nonneg v.c2
  have n3 := mul_self_nonneg v.c3
  have n4 := mul_self_nonneg v.c4
  have n5 := mul_self_nonneg v.c5
  have n6 := mul_self_nonneg v.c6
  have n7 := mul_self_nonneg v.c7
  refine ⟨?_, ?_, ?_, ?_, ?_, ?_, ?_, ?_⟩ <;>
    exact abs_le_of_mul_self_le _ _ ht (by linarith)

/-- C1: The 8-component residual computed by `parallelTangent_f` is zero
exactly when both constraint families hold — mass balance for Cr and Nb, and
equal chemical potential of gamma against delta, mu and Laves for each
component — and any bound `tol ≥ 0` on the Euclidean norm of the residual
(stated via its square, `normSq ≤ tol²`) bounds the violation of every one
of the eight constraint equations by `tol`. -/
theorem C1_parallelTangent_residual_characterization
    (m : FEModel) (p : RParams) (x : Vec8) :
    (parallelTangent_f m p x = Vec8.zero ↔ massBalance p x ∧ equalChemPot m x) ∧
    (∀ tol : ℚ, 0 ≤ tol → (parallelTangent_f m p x).normSq ≤ tol * tol →
      |p.x_Cr - ((1 - p.n_del - p.n_mu - p.n_lav) * x.c0 +
          p.n_del * x.c2 + p.n_mu * x.c4 + p.n_lav * x.c6)| ≤ tol ∧
      |p.x_Nb - ((1 - p.n_del - p.n_mu - p.n_lav) * x.c1 +
          p.n_del * x.c3 + p.n_mu * x.c5 + p.n_lav * x.c7)| ≤ tol ∧
      |m.dg_gam_dxCr x.c0 x.c1 - m.dg_del_dxCr x.c2 x.c3| ≤ tol ∧
      |m.dg_gam_dxNb x.c0 x.c1 - m.dg_del_dxNb x.c2 x.c3| ≤ tol ∧
      |m.dg_gam_dxCr x.c0 x.c1 - m.dg_mu_dxCr x.c4 x.c5| ≤ tol ∧
      |m.dg_gam_dxNb x.c0 x.c1 - m.dg_mu_dxNb x.c4 x.c5| ≤ tol ∧
      |m.dg_gam_dxCr x.c0 x.c1 - m.dg_lav_dxCr x.c6 x.c7| ≤ tol ∧
      |m.dg_gam_dxNb x.c0 x.c1 - m.dg_lav_dxNb x.c6 x.c7| ≤ tol) := by
  constructor
  · simp only [parallelTangent_f, Vec8.zero, massBalance, equalChemPot,
      Vec8.mk.injEq]
    constructor
    · rintro ⟨h0, h1, h2, h3, h4, h5, h6, h7⟩
      refine ⟨⟨by linarith, by linarith⟩,
        ⟨by linarith, by linarith⟩, ⟨by linarith, by linarith⟩,
        by linarith, by linarith⟩
    · rintro ⟨⟨h0, h1⟩, ⟨h2, h3⟩, ⟨h4, h5⟩, ⟨h6, h7⟩⟩
      refine ⟨by linarith, by linarith, by linarith, by linarith,
        by linarith, by linarith, by linarith, by linarith⟩
  · intro tol ht hn
    obtain ⟨b0, b1, b2, b3, b4, b5, b6, b7⟩ :=
      Vec8.comp_abs_le_of_normSq_le _ tol ht hn
    refine ⟨?_, ?_, ?_, ?_, ?_, ?_, ?_, ?_⟩
    · have e : p.x_Cr - ((1 - p.n_del - p.n_mu - p.n_lav) * x.c0 +
          p.n_del * x.c2 + p.n_mu * x.c4 + p.n_lav * x.c6)
          = (parallelTangent_f m p x).c0 := by
        simp only [parallelTangent_f]; ring
      rw [e]; exact b0
    · have e : p.x_Nb - ((1 - p.n_del - p.n_mu - p.n_lav) * x.c1 +
          p.n_del * x.c3 + p.n_mu * x.c5 + p.n_lav * x.c7)
          = (parallelTangent_f m p x).c1 := by
        simp only [parallelTangent_f]; ring
      rw [e]; exact b1
    · exact b2
    · exact b3
    · exact b4
    · exact b5
    · exact b6
    · exact b7

/-- Witness for C1 at a concrete input: the zero free-energy model, system
composition `(1/4, 1/4)`, zero secondary-phase fractions and fictitious
gamma composition `(1/4, 1/4)`; the residual is the zero vector, so both
constraint families hold, and the tolerance bound holds at `tol = 1`. -/
theorem C1_parallelTangent_residual_characterization_witness :
    (massBalance ⟨1/4, 1/4, 0, 0, 0⟩ ⟨1/4, 1/4, 0, 0, 0, 0, 0, 0⟩ ∧
      equalChemPot zeroModel ⟨1/4, 1/4, 0, 0, 0, 0, 0, 0⟩) ∧
    |(1/4 : ℚ) - ((1 - 0 - 0 - 0) * (1/4) + 0 * 0 + 0 * 0 + 0 * 0)| ≤ 1 := by
  refine ⟨(C1_parallelTangent_residual_characterization zeroModel
      ⟨1/4, 1/4, 0, 0, 0⟩ ⟨1/4, 1/4, 0, 0, 0, 0, 0, 0⟩).1.mp
      (by norm_num [parallelTangent_f, zeroModel, Vec8.zero, Vec8.mk.injEq]), ?_⟩
  exact ((C1_parallelTangent_residual_characterization zeroModel
      ⟨1/4, 1/4, 0, 0, 0⟩ ⟨1/4, 1/4, 0, 0, 0, 0, 0, 0⟩).2 1 (by norm_num)
      (by norm_num [parallelTangent_f, zeroModel, Vec8.normSq])).1

/-! ## C7: properties of the interpolation function `h` -/

/-- The interpolation function of `alloy625.cpp` line 1118 read over the
real numbers (the `double` formula `p*p*p*(6.0*p*p - 15.0*p + 10.0)`),
used to state the analytic facts (derivative, strict monotonicity). -/
def hReal (p : ℝ) : ℝ := p * p * p * (6 * p * p - 15 * p + 10)

/-- The derivative formula of `alloy625.cpp` line 1124 read over the real
numbers (`30.0*p*p*(1.0-p)*(1.0-p)`). -/
def hprimeReal (p : ℝ) : ℝ := 30 * p * p * (1 - p) * (1 - p)

/-- The functions `hReal` and the rational embedding `h` agree on rational inputs. -/
lemma hReal_cast (q : ℚ) : ((h q : ℚ) : ℝ) = hReal (q : ℝ) := by
  simp only [h, hReal]
  push_cast
  ring

/-- The functions `hprimeReal` and the rational embedding `hprime` agree on rationals. -/
lemma hprimeReal_cast (q : ℚ) : ((hprime q : ℚ) : ℝ) = hprimeReal (q : ℝ) := by
  simp only [hprime, hprimeReal]
  push_cast
  ring

/-- The function `hReal` has derivative `hprimeReal p` at every point `p`. -/
lemma hReal_hasDerivAt (p : ℝ) : HasDerivAt hReal (hprimeReal p) p := by
  have hx : HasDerivAt (fun x : ℝ => x) 1 p := hasDerivAt_id p
  have h2 : HasDerivAt (fun x : ℝ => x * x) (1 * p + p * 1) p := hx.mul hx
  have h3 : HasDerivAt (fun x : ℝ => x * x * x)
      ((1 * p + p * 1) * p + p * p * 1) p := h2.mul hx
  have ha : HasDerivAt (fun x : ℝ => 6 * x) 6 p := by
    simpa using hx.const_mul (6 : ℝ)
  have hb : HasDerivAt (fun x : ℝ => 6 * x * x) (6 * p + 6 * p * 1) p :=
    ha.mul hx
  have hc : HasDerivAt (fun x : ℝ => 15 * x) 15 p := by
    simpa using hx.const_mul (15 : ℝ)
  have hd : HasDerivAt (fun x : ℝ => 6 * x * x - 15 * x)
      (6 * p + 6 * p * 1 - 15) p := hb.sub hc
  have he : HasDerivAt (fun x : ℝ => 6 * x * x - 15 * x + 10)
      (6 * p + 6 * p * 1 - 15) p := hd.add_const 10
  have hf := h3.mul he
  have : HasDerivAt hReal
      (((1 * p + p * 1) * p + p * p * 1) * (6 * p * p - 15 * p + 10) +
        p * p * p * (6 * p + 6 * p * 1 - 15)) p := hf
  convert this using 1
  simp only [hprimeReal]
  ring

/-- The function `hReal` is continuous. -/
lemma hReal_continuous : Continuous hReal := by
  have : ∀ p : ℝ, HasDerivAt hReal (hprimeReal p) p := hReal_hasDerivAt
  exact continuous_iff_continuousAt.mpr fun p => (this p).continuousAt

/-- The function `hReal` is strictly increasing on `[0, 1]`. -/
lemma hReal_strictMonoOn : StrictMonoOn hReal (Set.Icc (0 : ℝ) 1) := by
  apply strictMonoOn_of_deriv_pos (convex_Icc 0 1) hReal_continuous.continuousOn
  intro x hx
  rw [interior_Icc, Set.mem_Ioo] at hx
  rw [(hReal_hasDerivAt x).deriv]
  simp only [hprimeReal]
  have hp1 : (0 : ℝ) < x * x := mul_pos hx.1 hx.1
  have hp2 : (0 : ℝ) < (1 - x) * (1 - x) :=
    mul_pos (by linarith [hx.2]) (by linarith [hx.2])
  nlinarith [mul_pos hp1 hp2]

/-- C7: The interpolation function satisfies `h(0)=0`, `h(1)=1`,
`h(0.5)=0.5`; it is strictly increasing on `[0,1]` and hence maps `[0,1]`
into `[0,1]`; `hprime(0)=hprime(1)=0`; and `hprime` equals the exact
derivative of `h` at every point (stated for the real reading `hReal` of
the same formula, which agrees with `h` on all rational inputs). -/
theorem C7_h_interpolation_properties :
    h 0 = 0 ∧ h 1 = 1 ∧ h (1/2) = 1/2 ∧
    StrictMonoOn (fun q : ℚ => h q) (Set.Icc (0 : ℚ) 1) ∧
    (∀ q ∈ Set.Icc (0 : ℚ) 1, h q ∈ Set.Icc (0 : ℚ) 1) ∧
    hprime 0 = 0 ∧ hprime 1 = 0 ∧
    (∀ p : ℝ, HasDerivAt hReal (hprimeReal p) p) ∧
    (∀ q : ℚ, ((h q : ℚ) : ℝ) = hReal (q : ℝ)) ∧
    (∀ q : ℚ, ((hprime q : ℚ) : ℝ) = hprimeReal (q : ℝ)) := by
  have mono : StrictMonoOn (fun q : ℚ => h q) (Set.Icc (0 : ℚ) 1) := by
    intro a ha b hb hab
    have haR : (a : ℝ) ∈ Set.Icc (0 : ℝ) 1 := by
      rw [Set.mem_Icc] at ha ⊢
      exact_mod_cast ha
    have hbR : (b : ℝ) ∈ Set.Icc (0 : ℝ) 1 := by
      rw [Set.mem_Icc] at hb ⊢
      exact_mod_cast hb
    have := hReal_strictMonoOn haR hbR (by exact_mod_cast hab)
    rw [← hReal_cast, ← hReal_cast] at this
    exact_mod_cast this
  refine ⟨by norm_num [h], by norm_num [h], by norm_num [h], mono, ?_,
    by norm_num [hprime], by norm_num [hprime],
    hReal_hasDerivAt, hReal_cast, hprimeReal_cast⟩
  intro q hq
  rw [Set.mem_Icc] at hq ⊢
  constructor
  · have h0 : h 0 = 0 := by norm_num [h]
    rcases eq_or_lt_of_le hq.1 with he | hlt
    · rw [← he, h0]
    · have := mono (Set.mem_Icc.mpr ⟨le_refl 0, by norm_num⟩)
        (Set.mem_Icc.mpr hq) hlt
      simp only at this
      rw [h0] at this
      exact le_of_lt this
  · have h1 : h 1 = 1 := by norm_num [h]
    rcases eq_or_lt_of_le hq.2 with he | hlt
    · rw [he, h1]
    · have := mono (Set.mem_Icc.mpr hq)
        (Set.mem_Icc.mpr ⟨by norm_num, le_refl 1⟩) hlt
      simp only at this
      rw [h1] at this
      exact le_of_lt this

/-- Witness for C7: the interval-membership conjunct applied at the
concrete point `1/2`. -/
theorem C7_h_interpolation_properties_witness :
    h (1/2) ∈ Set.Icc (0 : ℚ) 1 :=
  C7_h_interpolation_properties.2.2.2.2.1 (1/2) (by norm_num)

/-! ## C8: `generate` with an unsupported dimensionality
(`alloy625.cpp` lines 158-660) -/

/-- Which branch of the dimension dispatch of `generate` ran. -/
inductive GenOutcome
  /-- Case `dim == 1`: the 768-node 1D grid is constructed and initialized. -/
  | grid1D
  /-- Case `dim == 2`: the 768 x 192 2D grid is constructed and initialized. -/
  | grid2D
  /-- any other `dim`: the trailing `else` of lines 651-652. -/
  | unsupported
deriving DecidableEq

/-- Observable result of one `generate(dim, filename)` call. -/
structure GenResult where
  /-- which dispatch branch ran -/
  outcome : GenOutcome
  /-- whether the call terminates the process (`MMSP::Abort` / `exit`);
  `generate`, on the executed paths modelled here, never does: the
  unsupported-dimension branch only streams a message to `stderr` and
  falls through to the closing `fclose` block, returning normally. -/
  abortsProcess : Bool
  /-- whether an error message is streamed to `stderr` -/
  stderrMessage : Bool
deriving DecidableEq

/-- The dimension dispatch of `generate` (`alloy625.cpp` lines 179, 373,
651-652): `if (dim==1) {...} else if (dim==2) {...} else std::cerr <<
"Error: " << dim << "-dimensional grids unsupported." << std::endl;`
followed unconditionally by the file-closing epilogue and a normal return.
In the 2D branch the initial-condition selector is the constant
`if (1)` (line 427), so the `MMSP::Abort(-1)` of line 548 is dead code
and the branch returns normally. -/
def generateDispatch (dim : ℤ) : GenResult :=
  if dim = 1 then ⟨.grid1D, false, false⟩
  else if dim = 2 then ⟨.grid2D, false, false⟩
  else ⟨.unsupported, false, true⟩

/-- C8 counterexample: At the concrete unsupported dimensionality
`dim = 3`, `generate` emits the stderr message but does **not** terminate
the process: there is no `MMSP::Abort` or `exit` on that path, so the
claimed "terminates with nonzero exit status" is false. -/
theorem C8_counterexample_dim3_does_not_abort :
    ¬ ((generateDispatch 3).abortsProcess = true) := by
  norm_num [generateDispatch]

/-- C8 amended: When `generate` is called with a dimensionality other
than 1 or 2, an error message naming the dimensionality is emitted to
stderr, no grid is constructed and no stepping begins; but the call
returns normally instead of terminating the process. -/
theorem C8_generate_unsupported_dim_message_no_abort (dim : ℤ)
    (h1 : dim ≠ 1) (h2 : dim ≠ 2) :
    generateDispatch dim = ⟨.unsupported, false, true⟩ := by
  simp [generateDispatch, h1, h2]

/-- Witness for the amended C8 at `dim = 3`. -/
theorem C8_generate_unsupported_dim_message_no_abort_witness :
    generateDispatch 3 = ⟨.unsupported, false, true⟩ :=
  C8_generate_unsupported_dim_message_no_abort 3 (by norm_num) (by norm_num)

/-! ## C3: fallback to heuristic guesses on solver non-convergence
(`alloy625.cpp` lines 326-343 in `generate`, 821-837 in `update`) -/

/-- Source: `guessGamma` (`alloy625.cpp` lines 937-949): line-compound
approximation of gamma with `x_Nb = 0.015`; writes slots 5 and 6 only. -/
def guessGamma (v : NodeVec) : NodeVec :=
  let xcr := v.xCr
  let xnb : ℚ := 0.015
  let xni := max epsilon (1.0 - xcr - v.xNb)
  { v with cGamCr := xcr / (xcr + xnb + xni), cGamNb := xnb }

/-- Source: `guessDelta` (`alloy625.cpp` lines 952-963): line compound with
`x_Ni = 0.75`; writes slots 7 and 8 only. -/
def guessDelta (v : NodeVec) : NodeVec :=
  let xcr := v.xCr
  let xnb := v.xNb
  let xni : ℚ := 0.75
  { v with cDelCr := xcr / (xcr + xnb + xni), cDelNb := xnb / (xcr + xnb + xni) }

/-- Source: `guessMu` (`alloy625.cpp` lines 966-978): line compound with
`x_Nb = 0.525`; writes slots 9 and 10 only. -/
def guessMu (v : NodeVec) : NodeVec :=
  let xcr := v.xCr
  let xnb : ℚ := 0.525
  let xni := max epsilon (1.0 - xcr - v.xNb)
  { v with cMuCr := xcr / (xcr + xnb + xni), cMuNb := xnb }

/-- Source: `guessLaves` (`alloy625.cpp` lines 981-993): line compound with
`x_Nb = 0.30`; writes slots 11 and 12 only. -/
def guessLaves (v : NodeVec) : NodeVec :=
  let xcr := v.xCr
  let xnb : ℚ := 0.30
  let xni := max epsilon (1.0 - xcr - v.xNb)
  { v with cLavCr := xcr / (xcr + xnb + xni), cLavNb := xnb }

/-- The four heuristic guesses applied in the source order
`guessGamma; guessDelta; guessMu; guessLaves` (they write disjoint slots). -/
def guessAll (v : NodeVec) : NodeVec :=
  guessLaves (guessMu (guessDelta (guessGamma v)))

/-- The caller-side failure policy shared verbatim by `generate`
(lines 326-343, 606-622) and `update` (lines 821-837): run the tangent
solver (abstracted as a function returning the residual and the possibly
updated node vector), and if the returned residual exceeds `root_tol`,
increment `totBadTangents` and substitute the four heuristic guesses.
The result is wrapped in `Except` to record that this path contains no
`MMSP::Abort`/`exit` call: it always returns normally. -/
def tangentPostSolve (solve : NodeVec → ℚ × NodeVec) (v : NodeVec)
    (totBadTangents : ℕ) : Except String (NodeVec × ℕ) :=
  let r := solve v
  if r.1 > root_tol then .ok (guessAll r.2, totBadTangents + 1)
  else .ok (r.2, totBadTangents)

/-- C3: Whenever the solver returns a residual above `root_tol`, the
caller substitutes the deterministic heuristic guesses and increments the
failure counter; otherwise the solver output is accepted and the counter
is untouched; and in every case the node loop body returns normally
(solver non-convergence never aborts and never propagates). -/
theorem C3_solver_fallback_policy (solve : NodeVec → ℚ × NodeVec)
    (v : NodeVec) (bad : ℕ) :
    ((solve v).1 > root_tol →
      tangentPostSolve solve v bad = .ok (guessAll (solve v).2, bad + 1)) ∧
    (¬ (solve v).1 > root_tol →
      tangentPostSolve solve v bad = .ok ((solve v).2, bad)) ∧
    (∃ out, tangentPostSolve solve v bad = .ok out) := by
  by_cases hc : (solve v).1 > root_tol <;>
    simp [tangentPostSolve, hc]

/-- The all-zero node vector, used to instantiate universally quantified
statements at a concrete input. -/
def zeroNode : NodeVec := ⟨0, 0, 0, 0, 0, 0, 0, 0, 0, 0, 0, 0, 0, 0⟩

/-- Witness for C3: a solver stub reporting residual `1 > root_tol` on the
all-zero node makes the caller substitute the guesses and count the
failure, without aborting. -/
theorem C3_solver_fallback_policy_witness :
    tangentPostSolve (fun w => (1, w)) zeroNode 0 = .ok (guessAll zeroNode, 1) :=
  (C3_solver_fallback_policy (fun w => (1, w)) zeroNode 0).1
    (by norm_num [root_tol])

/-! ## C4 / C5: adaptive timestep accept/reject (`update`, lines 846-903) -/

/-- Source: `const double ideal_dt = (interfacialVelocity>epsilon) ?
advectionlimit / interfacialVelocity : 2.0 * current_dt;` (line 848). -/
def idealDt (interfacialVelocity current_dt : ℚ) : ℚ :=
  if interfacialVelocity > epsilon then advectionlimit / interfacialVelocity
  else 2.0 * current_dt

/-- The state of the time loop around one full-grid sweep.  The two grid
buffers are abstract handles of type `α`: an accepted step exchanges the
handles (`swap(oldGrid, newGrid)` is an O(1) reference swap in MMSP, not a
deep copy). -/
structure StepState (α : Type) where
  current_time : ℚ
  current_dt : ℚ
  oldGrid : α
  newGrid : α

/-- The accept/reject decision at the end of one sweep of `update`
(`alloy625.cpp` lines 846-903).  Accept (`current_dt < ideal_dt`):
advance time by `current_dt`, swap the buffers, and — only under adaptive
stepping and only when the velocity exceeds `epsilon` — grow the timestep
to `min(current_dt*scaleup, timelimit)`.  Reject: under adaptive stepping
shrink the timestep to `ideal_dt * scaledn` without advancing time or
swapping; otherwise stream an error and `MMSP::Abort(-1)`, modelled as
`Except.error`. -/
def timestepDecision {α : Type} (adaptStep : Bool) (dim : ℕ)
    (interfacialVelocity : ℚ) (s : StepState α) : Except String (StepState α) :=
  let ideal_dt := idealDt interfacialVelocity s.current_dt
  if s.current_dt < ideal_dt then
    let newDt :=
      if adaptStep ∧ interfacialVelocity > epsilon
      then min (s.current_dt * scaleup) (timelimit dim)
      else s.current_dt
    .ok ⟨s.current_time + s.current_dt, newDt, s.newGrid, s.oldGrid⟩
  else
    if adaptStep then
      .ok ⟨s.current_time, ideal_dt * scaledn, s.oldGrid, s.newGrid⟩
    else
      .error "ERROR: Interface swept more than one advection limit, timestep is too aggressive!"

/-- C4: In adaptive mode, a sweep with `current_dt < ideal_dt` is
accepted: simulation time advances by `current_dt`, the buffer handles are
exchanged (old receives new and vice versa — a swap, not a copy), and the
timestep becomes `min(current_dt * 1.1, min(dtp, dtc)/10)` when the
measured velocity exceeds `epsilon`, and is left unchanged otherwise. -/
theorem C4_adaptive_accept_step {α : Type} (dim : ℕ) (v : ℚ)
    (s : StepState α) (hacc : s.current_dt < idealDt v s.current_dt) :
    timestepDecision true dim v s =
      .ok ⟨s.current_time + s.current_dt,
        if v > epsilon then min (s.current_dt * scaleup) (timelimit dim)
        else s.current_dt,
        s.newGrid, s.oldGrid⟩ ∧
    scaleup = 1.1 ∧ timelimit dim = min (dtp dim) (dtc dim) / 10 := by
  refine ⟨?_, by norm_num [scaleup], rfl⟩
  by_cases hv : v > epsilon <;>
    simp [timestepDecision, hacc, hv]

/-- Witness for C4 at a concrete accepted step: velocity `1`, timestep
`1e-10` (the advection-limited ideal timestep is `6.25e-10`, so the step
is accepted and the timestep grows). -/
theorem C4_adaptive_accept_step_witness :
    timestepDecision true 1 1 (StepState.mk (α := ℕ) 0 1.0e-10 7 9) =
      .ok ⟨0 + 1.0e-10,
        if (1 : ℚ) > epsilon then min (1.0e-10 * scaleup) (timelimit 1)
        else 1.0e-10,
        9, 7⟩ :=
  (C4_adaptive_accept_step 1 1 ⟨0, 1.0e-10, 7, 9⟩
    (by norm_num [idealDt, epsilon, advectionlimit, meshres])).1

/-- C5: A sweep with `current_dt ≥ ideal_dt` is rejected.  Under
adaptive stepping: time does not advance, the buffer handles are not
exchanged, and the timestep becomes `ideal_dt * 0.8`, where `ideal_dt`
is `advectionlimit / velocity` when the velocity exceeds `epsilon` and
`2 * current_dt` otherwise.  With adaptive stepping disabled the same
situation aborts the run with an error message. -/
theorem C5_reject_step_and_fixed_mode_abort {α : Type} (dim : ℕ) (v : ℚ)
    (s : StepState α) (hrej : ¬ s.current_dt < idealDt v s.current_dt) :
    timestepDecision true dim v s =
      .ok ⟨s.current_time, idealDt v s.current_dt * scaledn,
        s.oldGrid, s.newGrid⟩ ∧
    scaledn = 0.8 ∧
    (v > epsilon → idealDt v s.current_dt = advectionlimit / v) ∧
    (¬ v > epsilon → idealDt v s.current_dt = 2 * s.current_dt) ∧
    (∃ msg, timestepDecision false dim v s = .error msg) := by
  refine ⟨by simp [timestepDecision, hrej], by norm_num [scaledn],
    ?_, ?_, ?_⟩
  · intro hv
    simp [idealDt, hv]
  · intro hv
    simp only [idealDt, hv, if_false]
    norm_num
  · refine ⟨ "ERROR: Interface swept more than one advection limit, timestep is too aggressive!", ?_⟩
    simp [timestepDecision, hrej]

/-- Witness for C5 at a concrete rejected step: velocity `1`, timestep
`1` (the ideal timestep `6.25e-10` is below `current_dt`, so the step is
rejected and the timestep shrinks to `ideal_dt * 0.8`). -/
theorem C5_reject_step_and_fixed_mode_abort_witness :
    timestepDecision true 1 1 (StepState.mk (α := ℕ) 0 1 7 9) =
      .ok ⟨0, idealDt 1 1 * scaledn, 7, 9⟩ :=
  (C5_reject_step_and_fixed_mode_abort 1 1 ⟨0, 1, 7, 9⟩
    (by norm_num [idealDt, epsilon, advectionlimit, meshres])).1

/-! ## 1D grid and stencil operators

The structured grid, its Neumann boundary handling and the `laplacian` /
`gradient` stencils live in the external MMSP library (`MMSP.hpp`), an
out-of-scope collaborator per the specification; they are modelled here
from the specification. -/

/-- A 1D MMSP grid of field vectors: extent `N`, uniform spacing `dx`,
and the per-node data (total on `ℕ`; only indices `< N` are ever read,
out-of-range neighbour indices being clamped by the Neumann rule). -/
structure Grid1D where
  N : ℕ
  dx : ℚ
  node : ℕ → NodeVec

/-- Left stencil neighbour index.  Modelled from the spec: at the left
domain edge with Neumann (zero-flux) conditions the ghost value equals
the edge value, so the left neighbour of node `0` is node `0` itself
(`ℕ` subtraction: `0 - 1 = 0`). -/
def idxL (x : ℕ) : ℕ := x - 1

/-- Right stencil neighbour index.  Modelled from the spec: at the right
domain edge the Neumann ghost value equals the edge value. -/
def idxR (g : Grid1D) (x : ℕ) : ℕ := if x + 1 < g.N then x + 1 else x

/-- Modelled from the spec: MMSP `laplacian(GRID, x)` for one field in
1D — the second-order central difference
`(f(x+1) - 2 f(x) + f(x-1)) / dx²` with Neumann boundary handling. -/
def lap1D (f : NodeVec → ℚ) (g : Grid1D) (x : ℕ) : ℚ :=
  (f (g.node (idxR g x)) - 2 * f (g.node x) + f (g.node (idxL x))) / (g.dx * g.dx)

/-- Modelled from the spec: MMSP `gradient(GRID, x, field)` in 1D — the
central difference `(f(x+1) - f(x-1)) / (2 dx)` with Neumann boundary
handling. -/
def grad1D (f : NodeVec → ℚ) (g : Grid1D) (x : ℕ) : ℚ :=
  (f (g.node (idxR g x)) - f (g.node (idxL x))) / (2 * g.dx)

/-- A grid is spatially uniform when every node carries the same vector. -/
def uniformG (g : Grid1D) : Prop := ∀ i, g.node i = g.node 0

/-- Copy of a node vector with the velocity slot (13) cleared; used to
state which slots a computation may depend on. -/
def eraseVel (v : NodeVec) : NodeVec := { v with vel := 0 }

/-- Write-back of a tangent-solver result: exactly the eight fictitious
composition slots 5-12, in the order of `rootsolver::solve` lines
1434-1444 (and of the four guess functions). -/
def writeTangents (v : NodeVec) (t : Vec8) : NodeVec :=
  { v with cGamCr := t.c0, cGamNb := t.c1, cDelCr := t.c2, cDelNb := t.c3,
           cMuCr := t.c4, cMuNb := t.c5, cLavCr := t.c6, cLavNb := t.c7 }

/-! ## The per-node update kernel (`update`, lines 737-842) -/

/-- The body of the point-wise kernel of `update` (lines 737-842), as a
function of the three stencil node vectors `vL, vC, vR` read from the old
grid, the pre-sweep new-buffer vector `prior` of the node, and the tangent
step `ts`.

`ts` abstracts lines 817-837: the `rootsolver::solve` call followed, on
residual failure, by the heuristic guesses.  Both write exactly the
fictitious-composition slots 5-12 and read slots 0-12 only (never the
velocity slot 13), so `ts` consumes the velocity-cleared seeded vector
and produces the eight tangent slots.

Slot bookkeeping of the copy loop
`for (i = NC+NP; i < fields(newGrid)-1; i++) newGridN[i] = oldGridN[i]`:
with `NC = 2` and `NP = 4` from `alloy625.hpp` this copies slots 6-12
only, so the seeded slot 5 (gamma Cr) keeps the **pre-sweep
new-buffer** value `prior.cGamCr`, and slot 13 is untouched. -/
def pointKernelCore (m : FEModel) (ts : NodeVec → Vec8) (cdt : ℚ) (dx : ℚ)
    (vL vC vR prior : NodeVec) : NodeVec :=
  let lap := fun f : NodeVec → ℚ => (f vR - 2 * f vC + f vL) / (dx * dx)
  let absPhi0 := |vC.pDel|
  let absPhi1 := |vC.pMu|
  let absPhi2 := |vC.pLav|
  let PE0 := m.g_gam vC.cGamCr vC.cGamNb
  let PE1 := m.g_del vC.cDelCr vC.cDelNb
  let PE2 := m.g_mu vC.cMuCr vC.cMuNb
  let PE3 := m.g_lav vC.cLavCr vC.cLavNb
  let chempot0 := m.dg_gam_dxCr vC.cGamCr vC.cGamNb
  let chempot1 := m.dg_gam_dxNb vC.cGamCr vC.cGamNb
  let P0 := PE0 - PE1 - (vC.cGamCr - vC.cDelCr) * chempot0 -
      (vC.cGamNb - vC.cDelNb) * chempot1
  let P1 := PE0 - PE2 - (vC.cGamCr - vC.cMuCr) * chempot0 -
      (vC.cGamNb - vC.cMuNb) * chempot1
  let P2 := PE0 - PE3 - (vC.cGamCr - vC.cLavCr) * chempot0 -
      (vC.cGamNb - vC.cLavNb) * chempot1
  let dF0 := -(sign vC.pDel) * hprime absPhi0 * P0 +
      2.0 * omega0 * vC.pDel * (1.0 - absPhi0) *
        (1.0 - absPhi0 - sign vC.pDel * vC.pDel) +
      4.0 * alphaCoeff * vC.pDel * (vC.pMu * vC.pMu + vC.pLav * vC.pLav) -
      kappa0 * lap (fun v => v.pDel)
  let dF1 := -(sign vC.pMu) * hprime absPhi1 * P1 +
      2.0 * omega1 * vC.pMu * (1.0 - absPhi1) *
        (1.0 - absPhi1 - sign vC.pMu * vC.pMu) +
      4.0 * alphaCoeff * vC.pMu * (vC.pDel * vC.pDel + vC.pLav * vC.pLav) -
      kappa1 * lap (fun v => v.pMu)
  let dF2 := -(sign vC.pLav) * hprime absPhi2 * P2 +
      2.0 * omega2 * vC.pLav * (1.0 - absPhi2) *
        (1.0 - absPhi2 - sign vC.pLav * vC.pLav) +
      4.0 * alphaCoeff * vC.pLav * (vC.pDel * vC.pDel + vC.pMu * vC.pMu) -
      kappa2 * lap (fun v => v.pLav)
  let seeded : NodeVec :=
    { xCr := vC.xCr + cdt * (D_CrCr * lap (fun v => v.cGamCr) +
          D_CrNb * lap (fun v => v.cGamNb)),
      xNb := vC.xNb + cdt * (D_NbCr * lap (fun v => v.cGamCr) +
          D_NbNb * lap (fun v => v.cGamNb)),
      pDel := vC.pDel - cdt * Lmob0 * dF0,
      pMu := vC.pMu - cdt * Lmob1 * dF1,
      pLav := vC.pLav - cdt * Lmob2 * dF2,
      cGamCr := prior.cGamCr,
      cGamNb := vC.cGamNb,
      cDelCr := vC.cDelCr,
      cDelNb := vC.cDelNb,
      cMuCr := vC.cMuCr,
      cMuNb := vC.cMuNb,
      cLavCr := vC.cLavCr,
      cLavNb := vC.cLavNb,
      vel := prior.vel }
  writeTangents seeded (ts (eraseVel seeded))

/-- The point-wise kernel at node `x`: stencil values are read from the
old grid, the pre-sweep value of the node from the new buffer. -/
def pointKernel (m : FEModel) (ts : NodeVec → Vec8) (cdt : ℚ)
    (g : Grid1D) (x : ℕ) (prior : NodeVec) : NodeVec :=
  pointKernelCore m ts cdt g.dx (g.node (idxL x)) (g.node x)
    (g.node (idxR g x)) prior

/-- One full-grid sweep of `update` (the per-node loop, lines 737-842),
carried over the explicit pair of buffers: all writes land in the new
buffer (second component); the old buffer is returned unchanged. -/
def updateSweep (m : FEModel) (ts : NodeVec → Vec8) (cdt : ℚ)
    (oldG newG : Grid1D) : Grid1D × Grid1D :=
  (oldG, ⟨oldG.N, oldG.dx, fun x => pointKernel m ts cdt oldG x (newG.node x)⟩)

/-- The new buffer produced by one sweep. -/
def sweepNew (m : FEModel) (ts : NodeVec → Vec8) (cdt : ℚ)
    (oldG newG : Grid1D) : Grid1D :=
  (updateSweep m ts cdt oldG newG).2

/-- Iteration: `k` accepted steps of the time loop: each sweeps `(old, new)` into the
new buffer and then swaps the buffers (`swap(oldGrid, newGrid)`). -/
def evolve (m : FEModel) (ts : NodeVec → Vec8) (cdt : ℚ) :
    ℕ → Grid1D × Grid1D → Grid1D × Grid1D
  | 0, p => p
  | k + 1, p => evolve m ts cdt k (sweepNew m ts cdt p.1 p.2, p.1)

/-- Total Cr content of the grid (sum of slot 0 over all nodes). -/
def totalCr (g : Grid1D) : ℚ := ∑ i ∈ Finset.range g.N, (g.node i).xCr

/-- Total Nb content of the grid (sum of slot 1 over all nodes). -/
def totalNb (g : Grid1D) : ℚ := ∑ i ∈ Finset.range g.N, (g.node i).xNb

/-! ## C2: mass conservation on uniform grids -/

/-- On a uniform stencil the kernel leaves both composition slots
unchanged: the discrete Laplacians of the chemical-potential fields
vanish. -/
lemma pointKernelCore_uniform_comp (m : FEModel) (ts : NodeVec → Vec8)
    (cdt dx : ℚ) (v p : NodeVec) :
    (pointKernelCore m ts cdt dx v v v p).xCr = v.xCr ∧
    (pointKernelCore m ts cdt dx v v v p).xNb = v.xNb := by
  simp only [pointKernelCore, writeTangents]
  constructor <;> ring

/-- On uniform buffers every node of the sweep result equals the kernel
value of the common node vectors. -/
lemma sweepNew_node_uniform (m : FEModel) (ts : NodeVec → Vec8) (cdt : ℚ)
    (g n : Grid1D) (hu : uniformG g) (hn : uniformG n) (x : ℕ) :
    (sweepNew m ts cdt g n).node x =
      pointKernelCore m ts cdt g.dx (g.node 0) (g.node 0) (g.node 0)
        (n.node 0) := by
  simp only [sweepNew, updateSweep, pointKernel]
  rw [hu (idxL x), hu x, hu (idxR g x), hn x]

/-- Uniformity of both buffers is preserved by a sweep. -/
lemma sweepNew_uniform (m : FEModel) (ts : NodeVec → Vec8) (cdt : ℚ)
    (g n : Grid1D) (hu : uniformG g) (hn : uniformG n) :
    uniformG (sweepNew m ts cdt g n) := by
  intro i
  rw [sweepNew_node_uniform m ts cdt g n hu hn i,
    sweepNew_node_uniform m ts cdt g n hu hn 0]

/-- On uniform buffers the sweep leaves both composition slots of every
node unchanged. -/
lemma sweepNew_comp_uniform (m : FEModel) (ts : NodeVec → Vec8) (cdt : ℚ)
    (g n : Grid1D) (hu : uniformG g) (hn : uniformG n) (x : ℕ) :
    ((sweepNew m ts cdt g n).node x).xCr = (g.node x).xCr ∧
    ((sweepNew m ts cdt g n).node x).xNb = (g.node x).xNb := by
  rw [sweepNew_node_uniform m ts cdt g n hu hn x, hu x]
  exact pointKernelCore_uniform_comp m ts cdt g.dx (g.node 0) (n.node 0)

/-- The active buffer of `evolve` keeps its extent, uniformity and node
compositions when both starting buffers are uniform. -/
lemma evolve_uniform_invariant (m : FEModel) (ts : NodeVec → Vec8)
    (cdt : ℚ) (k : ℕ) : ∀ o n : Grid1D, uniformG o → uniformG n →
    (evolve m ts cdt k (o, n)).1.N = o.N ∧
    uniformG (evolve m ts cdt k (o, n)).1 ∧
    ((evolve m ts cdt k (o, n)).1.node 0).xCr = (o.node 0).xCr ∧
    ((evolve m ts cdt k (o, n)).1.node 0).xNb = (o.node 0).xNb := by
  induction k with
  | zero => exact fun o n ho _ => ⟨rfl, ho, rfl, rfl⟩
  | succ k ih =>
    intro o n ho hn
    have hs : uniformG (sweepNew m ts cdt o n) := sweepNew_uniform m ts cdt o n ho hn
    obtain ⟨hN, hU, hCr, hNb⟩ := ih (sweepNew m ts cdt o n) o hs ho
    have hcomp := sweepNew_comp_uniform m ts cdt o n ho hn 0
    simp only [evolve]
    refine ⟨hN, hU, ?_, ?_⟩
    · rw [hCr, hcomp.1]
    · rw [hNb, hcomp.2]

/-- Total Cr of a uniform grid. -/
lemma totalCr_uniform (g : Grid1D) (hu : uniformG g) :
    totalCr g = (g.N : ℚ) * (g.node 0).xCr := by
  unfold totalCr
  rw [Finset.sum_congr rfl fun i _ => by rw [hu i]]
  simp [mul_comm]

/-- Total Nb of a uniform grid. -/
lemma totalNb_uniform (g : Grid1D) (hu : uniformG g) :
    totalNb g = (g.N : ℚ) * (g.node 0).xNb := by
  unfold totalNb
  rw [Finset.sum_congr rfl fun i _ => by rw [hu i]]
  simp [mul_comm]

/-- C2: Starting from a spatially uniform grid (and the new buffer
initialized as its copy, as `update` does), each sweep leaves the
composition slots 0 and 1 of every node unchanged — the composition
update adds `dt` times a linear combination of discrete Laplacians, which
vanish on uniform fields — and hence after any number `k` of accepted
steps (buffer swap included) the total Cr and total Nb content of the
active grid are exactly conserved.  The tangent step `ts` is arbitrary:
by construction (mirroring `rootsolver::solve` and the guess functions)
it writes only slots 5-12. -/
theorem C2_uniform_grid_mass_conservation (m : FEModel)
    (ts : NodeVec → Vec8) (cdt : ℚ) (g : Grid1D) (hu : uniformG g)
    (k : ℕ) :
    totalCr (evolve m ts cdt k (g, g)).1 = totalCr g ∧
    totalNb (evolve m ts cdt k (g, g)).1 = totalNb g ∧
    (∀ x, ((sweepNew m ts cdt g g).node x).xCr = (g.node x).xCr ∧
      ((sweepNew m ts cdt g g).node x).xNb = (g.node x).xNb) := by
  obtain ⟨hN, hU, hCr, hNb⟩ := evolve_uniform_invariant m ts cdt k g g hu hu
  refine ⟨?_, ?_, fun x => sweepNew_comp_uniform m ts cdt g g hu hu x⟩
  · rw [totalCr_uniform _ hU, totalCr_uniform g hu, hN, hCr]
  · rw [totalNb_uniform _ hU, totalNb_uniform g hu, hN, hNb]

/-- A concrete uniform 2-node grid at the nominal IN625 composition
(30% Cr, 2% Nb). -/
def uniformTwoNodeGrid : Grid1D :=
  ⟨2, meshres, fun _ => { zeroNode with xCr := 0.30, xNb := 0.02 }⟩

/-- Witness for C2: the concrete 2-node uniform grid with Neumann
boundaries conserves total Cr and Nb exactly over 100 steps. -/
theorem C2_uniform_grid_mass_conservation_witness :
    totalCr (evolve zeroModel (fun _ => Vec8.zero) 1 100
        (uniformTwoNodeGrid, uniformTwoNodeGrid)).1 = totalCr uniformTwoNodeGrid ∧
    totalNb (evolve zeroModel (fun _ => Vec8.zero) 1 100
        (uniformTwoNodeGrid, uniformTwoNodeGrid)).1 = totalNb uniformTwoNodeGrid := by
  obtain ⟨h1, h2, _⟩ := C2_uniform_grid_mass_conservation zeroModel
    (fun _ => Vec8.zero) 1 uniformTwoNodeGrid (fun i => rfl) 100
  exact ⟨h1, h2⟩

/-! ## C9: buffer separation of the sweep -/

/-- Clearing the velocity slot commutes with the tangent write-back. -/
lemma eraseVel_writeTangents (v : NodeVec) (t : Vec8) :
    eraseVel (writeTangents v t) = writeTangents (eraseVel v) t := rfl

/-- The kernel output at a node depends on the pre-sweep new-buffer
vector only through its gamma-Cr slot (5) — the seed the copy loop fails
to overwrite — and its velocity slot (13), which is merely retained. -/
lemma pointKernelCore_prior_dependence (m : FEModel) (ts : NodeVec → Vec8)
    (cdt dx : ℚ) (vL vC vR p₁ p₂ : NodeVec)
    (hc : p₁.cGamCr = p₂.cGamCr) :
    eraseVel (pointKernelCore m ts cdt dx vL vC vR p₁) =
      eraseVel (pointKernelCore m ts cdt dx vL vC vR p₂) := by
  simp only [pointKernelCore]
  rw [eraseVel_writeTangents, eraseVel_writeTangents]
  exact congrArg (fun w => writeTangents w (ts w))
    (by simp only [eraseVel]; rw [hc])

/-- A tangent step that (like any seeded iterative root finder) depends
on its initial guess: it returns the seeded gamma-Cr slot as the result.
Used to exhibit the dependence of the sweep on pre-sweep new-buffer
content. -/
def seedReadingSolver : NodeVec → Vec8 := fun v => ⟨v.cGamCr, 0, 0, 0, 0, 0, 0, 0⟩

/-- Old grid of the C9 counterexample: one node, all fields zero. -/
def cexOld : Grid1D := ⟨1, 1, fun _ => zeroNode⟩

/-- First pre-sweep new buffer: all fields zero. -/
def cexPriorA : Grid1D := ⟨1, 1, fun _ => zeroNode⟩

/-- Second pre-sweep new buffer: gamma-Cr slot (5) set to 1. -/
def cexPriorB : Grid1D := ⟨1, 1, fun _ => { zeroNode with cGamCr := 1 }⟩

/-- C9 counterexample: The claim that the new values of every node are
computed from old-state reads only fails: with `NC + NP = 6`
(`alloy625.hpp` defines `NP 4`), the guess-copy loop of `update` lines
818-819 copies slots 6-12 but not slot 5, so the tangent solve is seeded
with the **pre-sweep new-buffer** gamma-Cr value of the node.  Two sweeps from
the same old grid but different pre-sweep new buffers produce different
written gamma-Cr values at node 0. -/
theorem C9_counterexample_new_buffer_seed_dependence :
    ((sweepNew zeroModel seedReadingSolver 1 cexOld cexPriorA).node 0).cGamCr ≠
      ((sweepNew zeroModel seedReadingSolver 1 cexOld cexPriorB).node 0).cGamCr := by
  norm_num [sweepNew, updateSweep, pointKernel, pointKernelCore,
    writeTangents, eraseVel, seedReadingSolver, cexOld, cexPriorA,
    cexPriorB, zeroNode, idxL, idxR]

/-- C9 amended: During one full-grid sweep the old-state grid is
returned unchanged (all writes go exclusively to the new buffer), the
velocity slot 13 of a node is merely retained from the pre-sweep new
buffer, and the written values (slots 0-12) of each node are computed from
old-state reads plus the **own** pre-sweep new-buffer gamma-Cr
slot (5) only — in particular the stencil reads only pre-sweep values
and the new-buffer value of no other node is ever observed. -/
theorem C9_sweep_buffer_separation (m : FEModel) (ts : NodeVec → Vec8)
    (cdt : ℚ) (o n₁ n₂ : Grid1D) (x : ℕ)
    (hseed : (n₁.node x).cGamCr = (n₂.node x).cGamCr) :
    (updateSweep m ts cdt o n₁).1 = o ∧
    ((sweepNew m ts cdt o n₁).node x).vel = (n₁.node x).vel ∧
    eraseVel ((sweepNew m ts cdt o n₁).node x) =
      eraseVel ((sweepNew m ts cdt o n₂).node x) := by
  refine ⟨rfl, rfl, ?_⟩
  simp only [sweepNew, updateSweep, pointKernel]
  exact pointKernelCore_prior_dependence m ts cdt o.dx _ _ _ _ _ hseed

/-- Witness for the amended C9: the concrete sweep of the counterexample
grids, with the two pre-sweep buffers sharing the gamma-Cr slot. -/
theorem C9_sweep_buffer_separation_witness :
    (updateSweep zeroModel seedReadingSolver 1 cexOld cexPriorA).1 = cexOld ∧
    ((sweepNew zeroModel seedReadingSolver 1 cexOld cexPriorA).node 0).vel =
      (cexPriorA.node 0).vel ∧
    eraseVel ((sweepNew zeroModel seedReadingSolver 1 cexOld cexPriorA).node 0) =
      eraseVel ((sweepNew zeroModel seedReadingSolver 1 cexOld cexPriorA).node 0) :=
  C9_sweep_buffer_separation zeroModel seedReadingSolver 1 cexOld
    cexPriorA cexPriorA 0 rfl

/-! ## C6: `maxVelocity` (`alloy625.cpp` lines 1459-1505) -/

/-- The node loop of `maxVelocity`: `vmax` starts at `-epsilon` and takes
the maximum with the `myVelocity` of each node in turn. -/
def maxVelAux (f : ℕ → ℚ) : ℕ → ℚ
  | 0 => -epsilon
  | n + 1 => max (maxVelAux f n) (f n)

/-- Source: `myVelocity` of one node of `maxVelocity` (lines 1467-1490),
specialized to 1D where `magGrad = sqrt(gradPhi*gradPhi) = |gradPhi|`.
Phase fractions are interpolated from the **new** grid; `dphidt` compares
against the old grid; the gradient is taken on the new grid.  The loop
`for (i = 0; secondaries > epsilon && i < NP; i++)` has a loop-invariant
guard (`secondaries` is fixed before the loop), and its fourth iteration
(`NP = 4`) reads the zero-initialized `phFrac[3]`, which fails the
`(0.3, 0.7)` window, so only the three real phases can contribute.  Each
contributing phase adds `v * phFrac[i] * secondaries`, a phase-fraction
weighted share — not a maximum. -/
def nodeVelocity (oldG newG : Grid1D) (dt : ℚ) (x : ℕ) : ℚ :=
  let pf0 := h |(newG.node x).pDel|
  let pf1 := h |(newG.node x).pMu|
  let pf2 := h |(newG.node x).pLav|
  let ssum := pf0 + pf1 + pf2
  let secondaries := if ssum > epsilon then 1 / ssum else 0
  if secondaries > epsilon then
    (if pf0 > 0.3 ∧ pf0 < 0.7 ∧ |grad1D (fun v => v.pDel) newG x| > epsilon then
      ((|pf0 - h (abs (oldG.node x).pDel)| / dt) / |grad1D (fun v => v.pDel) newG x|)
        * pf0 * secondaries
    else 0) +
    (if pf1 > 0.3 ∧ pf1 < 0.7 ∧ |grad1D (fun v => v.pMu) newG x| > epsilon then
      ((|pf1 - h (abs (oldG.node x).pMu)| / dt) / |grad1D (fun v => v.pMu) newG x|)
        * pf1 * secondaries
    else 0) +
    (if pf2 > 0.3 ∧ pf2 < 0.7 ∧ |grad1D (fun v => v.pLav) newG x| > epsilon then
      ((|pf2 - h (abs (oldG.node x).pLav)| / dt) / |grad1D (fun v => v.pLav) newG x|)
        * pf2 * secondaries
    else 0)
  else 0

/-- Source: `maxVelocity(oldGrid, dt, newGrid)` returns maximum of the per-node loop
value over all nodes, seeded with `-epsilon` (line 1463). -/
def maxVelocity (oldG : Grid1D) (dt : ℚ) (newG : Grid1D) : ℚ :=
  maxVelAux (nodeVelocity oldG newG dt) newG.N

/-- The per-node velocity as described by the **claim**: the maximum of
the per-phase velocities `|Δh|/dt ÷ |∇φ|` over the qualifying phases
(interpolated fraction in `(0.3, 0.7)`, gradient magnitude above
`epsilon`), with non-qualifying phases contributing zero. -/
def nodeVelocityClaim (oldG newG : Grid1D) (dt : ℚ) (x : ℕ) : ℚ :=
  let pf0 := h |(newG.node x).pDel|
  let pf1 := h |(newG.node x).pMu|
  let pf2 := h |(newG.node x).pLav|
  max (max
    (if pf0 > 0.3 ∧ pf0 < 0.7 ∧ |grad1D (fun v => v.pDel) newG x| > epsilon then
      (|pf0 - h (abs (oldG.node x).pDel)| / dt) / |grad1D (fun v => v.pDel) newG x|
    else 0)
    (if pf1 > 0.3 ∧ pf1 < 0.7 ∧ |grad1D (fun v => v.pMu) newG x| > epsilon then
      (|pf1 - h (abs (oldG.node x).pMu)| / dt) / |grad1D (fun v => v.pMu) newG x|
    else 0))
    (if pf2 > 0.3 ∧ pf2 < 0.7 ∧ |grad1D (fun v => v.pLav) newG x| > epsilon then
      (|pf2 - h (abs (oldG.node x).pLav)| / dt) / |grad1D (fun v => v.pLav) newG x|
    else 0)

/-- Claim version of `maxVelocity`: per-node maximum over
phases, maximized over nodes. -/
def maxVelocityClaim (oldG : Grid1D) (dt : ℚ) (newG : Grid1D) : ℚ :=
  maxVelAux (nodeVelocityClaim oldG newG dt) newG.N

/-- An edge node of the C6 counterexample grid: delta and mu order
parameters both equal to `a` (interpolated fractions outside the
`(0.3, 0.7)` window). -/
def c6NodeEdge (a : ℚ) : NodeVec := { zeroNode with pDel := a, pMu := a }

/-- Old grid of the C6 counterexample: 3 nodes, `dx = 1`; the middle node
is mid-interface in delta (`φ = 0.5`) and mu (`φ = 0.4`). -/
def c6Old : Grid1D :=
  ⟨3, 1, fun i =>
    if i = 0 then c6NodeEdge 0.3
    else if i = 1 then { zeroNode with pDel := 0.5, pMu := 0.4 }
    else c6NodeEdge 0.1⟩

/-- New grid of the C6 counterexample: as `c6Old` but the mu order parameter of the middle
node has advanced from `0.4` to `0.5`. -/
def c6New : Grid1D :=
  ⟨3, 1, fun i =>
    if i = 0 then c6NodeEdge 0.3
    else if i = 1 then { zeroNode with pDel := 0.5, pMu := 0.5 }
    else c6NodeEdge 0.1⟩

/-- C6 counterexample: On the concrete 3-node grids, two phases
qualify at the middle node with per-phase velocities `0` (delta) and
`1.8256` (mu); the phase-fraction weighted sum of the code gives `0.9128`
while the claimed per-node maximum gives `1.8256`, so `maxVelocity` does
not compute the claimed quantity. -/
theorem C6_counterexample_weighted_sum_vs_max :
    maxVelocity c6Old 1 c6New ≠ maxVelocityClaim c6Old 1 c6New := by
  have hA : maxVelocity c6Old 1 c6New =
      max (max (max (-epsilon) (nodeVelocity c6Old c6New 1 0))
        (nodeVelocity c6Old c6New 1 1)) (nodeVelocity c6Old c6New 1 2) := rfl
  have hB : maxVelocityClaim c6Old 1 c6New =
      max (max (max (-epsilon) (nodeVelocityClaim c6Old c6New 1 0))
        (nodeVelocityClaim c6Old c6New 1 1)) (nodeVelocityClaim c6Old c6New 1 2) := rfl
  rw [hA, hB]
  norm_num [nodeVelocity, nodeVelocityClaim, c6Old, c6New, c6NodeEdge,
    zeroNode, grad1D, idxL, idxR, h, epsilon,
    abs_of_nonneg, abs_of_nonpos]

/-- The per-node velocity that `maxVelocity` actually computes, written
as a weighted average: the sum over qualifying phases of the velocity of
each phase weighted by its interpolated fraction, divided by the total
secondary-phase fraction (subject to the two `epsilon` guards of the source). -/
def nodeVelocityWeighted (oldG newG : Grid1D) (dt : ℚ) (x : ℕ) : ℚ :=
  let pf0 := h |(newG.node x).pDel|
  let pf1 := h |(newG.node x).pMu|
  let pf2 := h |(newG.node x).pLav|
  let ssum := pf0 + pf1 + pf2
  if ssum > epsilon ∧ 1 / ssum > epsilon then
    ((if pf0 > 0.3 ∧ pf0 < 0.7 ∧ |grad1D (fun v => v.pDel) newG x| > epsilon then
        (|pf0 - h (abs (oldG.node x).pDel)| / dt) / |grad1D (fun v => v.pDel) newG x| * pf0
      else 0) +
     (if pf1 > 0.3 ∧ pf1 < 0.7 ∧ |grad1D (fun v => v.pMu) newG x| > epsilon then
        (|pf1 - h (abs (oldG.node x).pMu)| / dt) / |grad1D (fun v => v.pMu) newG x| * pf1
      else 0) +
     (if pf2 > 0.3 ∧ pf2 < 0.7 ∧ |grad1D (fun v => v.pLav) newG x| > epsilon then
        (|pf2 - h (abs (oldG.node x).pLav)| / dt) / |grad1D (fun v => v.pLav) newG x| * pf2
      else 0)) / ssum
  else 0

/-- Distributing a common reciprocal factor out of three guarded terms. -/
lemma ite_mul_inv_sum (P0 P1 P2 : Prop) [Decidable P0] [Decidable P1]
    [Decidable P2] (a b c s : ℚ) :
    (if P0 then a * (1 / s) else 0) + (if P1 then b * (1 / s) else 0) +
      (if P2 then c * (1 / s) else 0) =
    ((if P0 then a else 0) + (if P1 then b else 0) + (if P2 then c else 0)) / s := by
  split_ifs <;> ring

/-- The loop value of `maxVelocity` node by node is exactly the weighted
average, not a maximum over phases. -/
lemma nodeVelocity_eq_weighted (oldG newG : Grid1D) (dt : ℚ) (x : ℕ) :
    nodeVelocity oldG newG dt x = nodeVelocityWeighted oldG newG dt x := by
  simp only [nodeVelocity, nodeVelocityWeighted]
  by_cases h1 : (h |(newG.node x).pDel| + h |(newG.node x).pMu| +
      h |(newG.node x).pLav|) > epsilon
  · simp only [h1, if_true]
    by_cases h2 : 1 / (h |(newG.node x).pDel| + h |(newG.node x).pMu| +
        h |(newG.node x).pLav|) > epsilon
    · simp only [h2, if_true, and_true, true_and, and_self]
      exact ite_mul_inv_sum _ _ _ _ _ _ _
    · have h2e : ¬ epsilon < (h |(newG.node x).pDel| + h |(newG.node x).pMu| +
          h |(newG.node x).pLav|)⁻¹ := by
        rw [← one_div]
        exact h2
      simp [h2e, h2]
  · simp only [h1, if_false, false_and]
    norm_num [epsilon]

/-- Every node value is bounded by the loop maximum. -/
lemma le_maxVelAux (f : ℕ → ℚ) : ∀ n x, x < n → f x ≤ maxVelAux f n := by
  intro n
  induction n with
  | zero => exact fun x hx => absurd hx (Nat.not_lt_zero x)
  | succ n ih =>
    intro x hx
    rcases Nat.lt_succ_iff_lt_or_eq.mp hx with hlt | heq
    · exact le_trans (ih x hlt) (le_max_left _ _)
    · subst heq
      exact le_max_right _ _

/-- The loop maximum is the seed or is attained at some node. -/
lemma maxVelAux_attained (f : ℕ → ℚ) :
    ∀ n, maxVelAux f n = -epsilon ∨ ∃ x, x < n ∧ maxVelAux f n = f x := by
  intro n
  induction n with
  | zero => exact Or.inl rfl
  | succ n ih =>
    rcases max_choice (maxVelAux f n) (f n) with hcase | hcase
    · rw [show maxVelAux f (n + 1) = max (maxVelAux f n) (f n) from rfl, hcase]
      rcases ih with h0 | ⟨x, hx, he⟩
      · exact Or.inl h0
      · exact Or.inr ⟨x, Nat.lt_succ_of_lt hx, he⟩
    · exact Or.inr ⟨n, Nat.lt_succ_self n,
        by rw [show maxVelAux f (n + 1) = max (maxVelAux f n) (f n) from rfl, hcase]⟩

/-- C6 amended: `maxVelocity(oldGrid, dt, newGrid)` returns the
maximum over all grid nodes (seeded with `-epsilon`) of the per-node
velocity, where the per-node velocity is the **phase-fraction weighted
average** — each qualifying phase (interpolated fraction in `(0.3, 0.7)`,
gradient magnitude above `epsilon`) contributes
`|h(|φ_new|) − h(|φ_old|)|/dt ÷ |∇φ|` weighted by its interpolated
fraction over the total secondary-phase fraction — not the per-phase
maximum that the claim states. -/
theorem C6_maxVelocity_weighted_characterization (oldG : Grid1D) (dt : ℚ)
    (newG : Grid1D) :
    (∀ x, nodeVelocity oldG newG dt x = nodeVelocityWeighted oldG newG dt x) ∧
    (∀ x, x < newG.N →
      nodeVelocityWeighted oldG newG dt x ≤ maxVelocity oldG dt newG) ∧
    (maxVelocity oldG dt newG = -epsilon ∨
      ∃ x, x < newG.N ∧
        maxVelocity oldG dt newG = nodeVelocityWeighted oldG newG dt x) := by
  refine ⟨nodeVelocity_eq_weighted oldG newG dt, ?_, ?_⟩
  · intro x hx
    rw [← nodeVelocity_eq_weighted oldG newG dt x]
    exact le_maxVelAux _ _ x hx
  · rcases maxVelAux_attained (nodeVelocity oldG newG dt) newG.N with h0 | ⟨x, hx, he⟩
    · exact Or.inl h0
    · exact Or.inr ⟨x, hx, by rw [← nodeVelocity_eq_weighted oldG newG dt x]; exact he⟩

/-- Witness for the amended C6: at the middle node of the concrete grids
the weighted node velocity is bounded by the returned maximum. -/
theorem C6_maxVelocity_weighted_characterization_witness :
    nodeVelocityWeighted c6Old c6New 1 1 ≤ maxVelocity c6Old 1 c6New :=
  (C6_maxVelocity_weighted_characterization c6Old 1 c6New).2.1 1
    (by norm_num [c6New])

/-! ## C10: `rootsolver::solve` (`alloy625.cpp` lines 1393-1448) -/

/-- Observable state of the GSL multiroot solver: current iterate `x` and
residual vector `f` (`solver->x`, `solver->f`). -/
structure SolverState where
  x : Vec8
  f : Vec8
deriving DecidableEq

/-- Terminal status of the iteration loop of `solve` (lines 1423-1429):
`success` — `gsl_multiroot_test_residual` returned `GSL_SUCCESS`;
`continueBudget` — the iteration budget ran out while the test still
returned `GSL_CONTINUE`; `iterError` — `gsl_multiroot_fdfsolver_iterate`
returned a nonzero status and the loop broke out early. -/
inductive GSLStatus
  | success
  | continueBudget
  | iterError
deriving DecidableEq

/-- Modelled from the GSL documentation (external library):
`gsl_multiroot_test_residual(f, epsabs)` returns success when the sum of
absolute residual components is below the tolerance. -/
def gslTestResidual (f : Vec8) (tol : ℚ) : Bool := f.sumAbs < tol

/-- The do-while iteration of `solve` (lines 1423-1429): run one solver
step (`stepFn`, abstracting the external `hybridsj` algorithm; its `Bool`
is false when `iterate` reports an error), break on error, otherwise test
the residual; repeat while the test continues and the iteration budget
(`fuel` further iterations after the first) remains. -/
def solveLoop (stepFn : SolverState → Bool × SolverState) (tol : ℚ) :
    ℕ → SolverState → GSLStatus × SolverState
  | 0, s =>
    let r := stepFn s
    if r.1 = false then (.iterError, r.2)
    else if gslTestResidual r.2.f tol then (.success, r.2)
    else (.continueBudget, r.2)
  | fuel + 1, s =>
    let r := stepFn s
    if r.1 = false then (.iterError, r.2)
    else if gslTestResidual r.2.f tol then (.success, r.2)
    else solveLoop stepFn tol fuel r.2

/-- The eight fictitious-composition slots of a node vector, in the order
`solve` copies them into the GSL vector (lines 1408-1418). -/
def vec8Of (v : NodeVec) : Vec8 :=
  ⟨v.cGamCr, v.cGamNb, v.cDelCr, v.cDelNb, v.cMuCr, v.cMuNb, v.cLavCr, v.cLavNb⟩

/-- The solver constants read from the node vector (lines 1399-1404):
system compositions and interpolated phase fractions. -/
def rparamsOf (v : NodeVec) : RParams :=
  ⟨v.xCr, v.xNb, h |v.pDel|, h |v.pMu|, h |v.pLav|⟩

/-- Source: `rootsolver::solve(GRIDN)` (lines 1393-1448): seed the iterate from
slots 5-12 (`gsl_multiroot_fdfsolver_set` also evaluates the residual
there), run the iteration loop with budget `root_max_iter`, and copy the
final iterate back into slots 5-12 **only** when the loop ended with
`GSL_SUCCESS`; in every case return the Euclidean norm of the residual at
the final iterate (`gsl_blas_dnrm2(solver->f)`) — represented here by its
square `normSq`, which stays in `ℚ`; the square root is monotone, so the
comparison of the caller against `root_tol` corresponds to comparing `normSq`
against `root_tol²`. -/
def rootsolverSolve (m : FEModel) (stepFn : SolverState → Bool × SolverState)
    (v : NodeVec) : ℚ × NodeVec :=
  let x0 := vec8Of v
  let s0 : SolverState := ⟨x0, parallelTangent_f m (rparamsOf v) x0⟩
  let r := solveLoop stepFn root_tol (root_max_iter - 1) s0
  if r.1 = .success then (r.2.f.normSq, writeTangents v r.2.x)
  else (r.2.f.normSq, v)

/-- C10: `rootsolver::solve` never modifies the system compositions
and phase fractions (slots 0-4) or the velocity slot (13); it writes the
fictitious compositions (slots 5-12) exactly when the iteration ends with
the residual test satisfied (`GSL_SUCCESS`); on any other termination the
whole node vector is returned unchanged; and in all cases the returned
residual is the (squared) Euclidean norm of the residual at the final
iterate. -/
theorem C10_rootsolver_solve_frame (m : FEModel)
    (stepFn : SolverState → Bool × SolverState) (v : NodeVec) :
    ((rootsolverSolve m stepFn v).2.xCr = v.xCr ∧
     (rootsolverSolve m stepFn v).2.xNb = v.xNb ∧
     (rootsolverSolve m stepFn v).2.pDel = v.pDel ∧
     (rootsolverSolve m stepFn v).2.pMu = v.pMu ∧
     (rootsolverSolve m stepFn v).2.pLav = v.pLav ∧
     (rootsolverSolve m stepFn v).2.vel = v.vel) ∧
    (∀ st fin, solveLoop stepFn root_tol (root_max_iter - 1)
        ⟨vec8Of v, parallelTangent_f m (rparamsOf v) (vec8Of v)⟩ = (st, fin) →
      (st ≠ .success → (rootsolverSolve m stepFn v).2 = v) ∧
      (st = .success →
        (rootsolverSolve m stepFn v).2 = writeTangents v fin.x) ∧
      (rootsolverSolve m stepFn v).1 = fin.f.normSq) := by
  constructor
  · simp only [rootsolverSolve]
    by_cases hs : (solveLoop stepFn root_tol (root_max_iter - 1)
        ⟨vec8Of v, parallelTangent_f m (rparamsOf v) (vec8Of v)⟩).1 = .success <;>
      simp [hs, writeTangents]
  · intro st fin hloop
    refine ⟨?_, ?_, ?_⟩
    · intro hne
      simp only [rootsolverSolve, hloop]
      simp [hne]
    · intro heq
      simp only [rootsolverSolve, hloop]
      simp [heq]
    · simp only [rootsolverSolve, hloop]
      by_cases hs : st = GSLStatus.success <;> simp [hs]

/-- If the first solver step reports success of the residual test, the
loop ends immediately with `GSL_SUCCESS` at that state, for any budget. -/
lemma solveLoop_first_step_success (stepFn : SolverState → Bool × SolverState)
    (tol : ℚ) (fuel : ℕ) (s s2 : SolverState) (hstep : stepFn s = (true, s2))
    (htest : gslTestResidual s2.f tol = true) :
    solveLoop stepFn tol fuel s = (.success, s2) := by
  cases fuel <;> simp [solveLoop, hstep, htest]

/-- Witness for C10: with a stationary solver step and the zero model on
the all-zero node, the initial residual already passes the test, the
status is `GSL_SUCCESS`, and the write-back happens; the preserved slots
are visibly unchanged. -/
theorem C10_rootsolver_solve_frame_witness :
    (rootsolverSolve zeroModel (fun s => (true, s)) zeroNode).2 =
      writeTangents zeroNode (vec8Of zeroNode) ∧
    (rootsolverSolve zeroModel (fun s => (true, s)) zeroNode).2.vel =
      zeroNode.vel := by
  have hloop : solveLoop (fun s => (true, s)) root_tol (root_max_iter - 1)
      ⟨vec8Of zeroNode, parallelTangent_f zeroModel (rparamsOf zeroNode)
        (vec8Of zeroNode)⟩ =
      (.success, ⟨vec8Of zeroNode, parallelTangent_f zeroModel
        (rparamsOf zeroNode) (vec8Of zeroNode)⟩) := by
    refine solveLoop_first_step_success _ _ _ _ _ rfl ?_
    norm_num [gslTestResidual, Vec8.sumAbs, parallelTangent_f, zeroModel,
      rparamsOf, vec8Of, zeroNode, root_tol, h]
  obtain ⟨hframe, hrest⟩ := C10_rootsolver_solve_frame zeroModel
    (fun s => (true, s)) zeroNode
  exact ⟨(hrest _ _ hloop).2.1 rfl, hframe.2.2.2.2.2⟩

end Alloy625
